import Mathlib

/-!
Shallow embedding of the pagination and resource-resolution engine of
`nodes/Basecamp/GenericFunctions.ts` (an n8n connector for the Basecamp API),
together with theorems settling the specification claims about it.

JavaScript values flowing through the engine are modelled by the inductive
`Json`; JS objects become association lists, property access becomes `jGet`
(absent keys yield `undefined`, mirroring JavaScript's `undefined`), and the
truthiness tests the source relies on (`||`, `!x`, `x && y`) are modelled
explicitly.  Network I/O is modelled by transport oracles
(`RequestOptions → Except String Json` for the JSON helper,
`String → Except String LinkResponse` for the full-response helper), and the
unbounded `while`/`do-while` loops of the source become fuel-indexed
recursions returning `none` on fuel exhaustion.  Every function additionally
returns the list of requests it issued, so that claims about request counts
and constructed URLs can be stated.
-/

namespace Basecamp

/-- JSON-ish universe of JavaScript values seen by the connector.
`undefined` models JavaScript's `undefined` (absent property). -/
inductive Json where
  | null : Json
  | undefined : Json
  | bool (b : Bool) : Json
  | num (n : Nat) : Json
  | str (s : String) : Json
  | arr (elems : List Json) : Json
  | obj (fields : List (String × Json)) : Json

mutual

/-- Structural equality on `Json`, modelling JS `===` on the primitive values
the connector compares (its only `===` uses compare strings). -/
def Json.beq : Json → Json → Bool
  | .null, .null => true
  | .undefined, .undefined => true
  | .bool a, .bool b => a == b
  | .num a, .num b => a == b
  | .str a, .str b => a == b
  | .arr a, .arr b => Json.beqList a b
  | .obj a, .obj b => Json.beqFields a b
  | _, _ => false

/-- Element-wise `Json.beq` on lists. -/
def Json.beqList : List Json → List Json → Bool
  | [], [] => true
  | x :: xs, y :: ys => Json.beq x y && Json.beqList xs ys
  | _, _ => false

/-- Field-wise `Json.beq` on objects. -/
def Json.beqFields : List (String × Json) → List (String × Json) → Bool
  | [], [] => true
  | (k1, v1) :: xs, (k2, v2) :: ys => k1 == k2 && Json.beq v1 v2 && Json.beqFields xs ys
  | _, _ => false

end

instance : BEq Json := ⟨Json.beq⟩

/-- First binding of a key in an association list (JS object lookup). -/
def assocFind (l : List (String × Json)) (k : String) : Option Json :=
  (l.find? (fun p => p.1 = k)).map Prod.snd

/-- JS property write `o[k] = v`: overwrite in place if present, else append. -/
def setKey : List (String × Json) → String → Json → List (String × Json)
  | [], k, v => [(k, v)]
  | (k', v') :: rest, k, v =>
      if k' = k then (k, v) :: rest else (k', v') :: setKey rest k v

/-- JS property read `o.k` on a `Json` value: `undefined` when absent or when the
receiver is not an object. -/
def jGet (j : Json) (k : String) : Json :=
  match j with
  | .obj fields => (assocFind fields k).getD .undefined
  | _ => .undefined

/-- JS truthiness of a `Json` value. -/
def truthy : Json → Bool
  | .null => false
  | .undefined => false
  | .bool b => b
  | .num n => n != 0
  | .str s => s != ""
  | .arr _ => true
  | .obj _ => true

/-- JS `a || b` on `Json` values. -/
def jsOrJson (a b : Json) : Json := if truthy a then a else b

/-- JS `x.toString()` for the id values the connector stringifies. -/
def jsToString : Json → String
  | .num n => toString n
  | .str s => s
  | .bool b => toString b
  | _ => ""

/-- JS `a || b` where both operands are possibly-absent header strings
(`undefined` and `""` are falsy). -/
def jsOrStr (a b : Option String) : Option String :=
  match a with
  | some s => if s = "" then b else some s
  | none => b

/-- First binding of a key in a string-valued association list
(response-header lookup). -/
def hdrFind (l : List (String × String)) (k : String) : Option String :=
  (l.find? (fun p => p.1 = k)).map Prod.snd

/-! ### The two regular expressions of the source, as explicit scanners

`/<([^>]+)>;\s*rel="next"/.exec(link)` and
`url.match(/buckets\/(\d+)\/todosets\/(\d+)/)`.  Both have the leftmost-match
semantics of JS `exec`/`match`; neither needs backtracking, because each
greedy class (`[^>]+`, `\d+`) is delimited by a character it cannot match. -/

/-- Drop a literal off the front of a character list, or fail. -/
def stripLit (lit cs : List Char) : Option (List Char) :=
  if lit.isPrefixOf cs then some (cs.drop lit.length) else none

/-- JS `\s` whitespace class (the characters relevant to header values). -/
def isJsSpace (c : Char) : Bool :=
  c = ' ' || c = '\t' || c = '\n' || c = '\r' || c = '\x0b' || c = '\x0c'

/-- Try `/<([^>]+)>;\s*rel="next"/` anchored at the head of `cs`; return the
first capture group on success. -/
def linkNextAt (cs : List Char) : Option String :=
  match cs with
  | '<' :: rest =>
      let cap := rest.takeWhile (fun c => c ≠ '>')
      let rest1 := rest.dropWhile (fun c => c ≠ '>')
      if cap.isEmpty then none
      else
        match rest1 with
        | '>' :: ';' :: rest2 =>
            match stripLit "rel=\"next\"".toList (rest2.dropWhile isJsSpace) with
            | some _ => some (String.mk cap)
            | none => none
        | _ => none
  | _ => none

/-- Leftmost match of `/<([^>]+)>;\s*rel="next"/` over a character list. -/
def linkNextScan : List Char → Option String
  | [] => none
  | c :: rest =>
      match linkNextAt (c :: rest) with
      | some cap => some cap
      | none => linkNextScan rest

/-- The value `m[1]` of `/<([^>]+)>;\s*rel="next"/.exec(s)`, or `none` when no match. -/
def execLinkNext (s : String) : Option String :=
  linkNextScan s.toList

/-- Try `/buckets\/(\d+)\/todosets\/(\d+)/` anchored at the head of `cs`;
return both capture groups on success. -/
def bucketsTodosetsAt (cs : List Char) : Option (String × String) :=
  match stripLit "buckets/".toList cs with
  | none => none
  | some rest =>
      let d1 := rest.takeWhile Char.isDigit
      let rest1 := rest.dropWhile Char.isDigit
      if d1.isEmpty then none
      else
        match stripLit "/todosets/".toList rest1 with
        | none => none
        | some rest2 =>
            let d2 := rest2.takeWhile Char.isDigit
            if d2.isEmpty then none
            else some (String.mk d1, String.mk d2)

/-- Leftmost match of `/buckets\/(\d+)\/todosets\/(\d+)/`. -/
def bucketsTodosetsScan : List Char → Option (String × String)
  | [] => none
  | c :: rest =>
      match bucketsTodosetsAt (c :: rest) with
      | some caps => some caps
      | none => bucketsTodosetsScan rest

/-- The call `url.match(/buckets\/(\d+)\/todosets\/(\d+)/)`: the two capture groups,
or `none` when the pattern does not match. -/
def matchBucketsTodosets (s : String) : Option (String × String) :=
  bucketsTodosetsScan s.toList

/-! ### AuthenticatedRequestClient (`basecampApiRequest`, lines 16-61) -/

/-- The host execution context the functions read through `this`:
the `accountId` node parameter and the node identity used in errors. -/
structure HostCtx where
  accountParam : String
  nodeName : String

/-- The options object handed to the HTTP helper (lines 26-44): method, the
constructed URL, and the body/query maps after the empty-map deletions. -/
structure RequestOptions where
  method : String
  url : String
  bodyFields : Option (List (String × Json))
  qs : Option (List (String × Json))

/-- Errors surfacing from the engine: `apiError` models
`new NodeApiError(this.getNode(), error)` (node identity plus wrapped cause),
`rawError` models an exception propagating without that wrapping. -/
inductive EngineError where
  | apiError (node : String) (cause : String) : EngineError
  | rawError (cause : String) : EngineError

/-- Transport oracle for the JSON helper: `helpers.requestWithAuthentication`
with `json: true` — either a parsed body or a failure cause. -/
def Transport : Type := RequestOptions → Except String Json

/-- Line 24 and 72, `accountId || this.getNodeParameter('accountId', 0)`:
the optional argument wins unless it is absent or the empty string
(JS `||` treats `""` as falsy). -/
def resolveAccount (accountId : Option String) (ctx : HostCtx) : String :=
  match accountId with
  | some a => if a = "" then ctx.accountParam else a
  | none => ctx.accountParam

/-- Lines 26-44: build the options object; `delete options.body` /
`delete options.qs` when the corresponding map has zero keys. -/
def buildOptions (method endpoint : String) (body query : List (String × Json))
    (account : String) : RequestOptions :=
  let opts : RequestOptions :=
    { method := method
      url := "https://3.basecampapi.com/" ++ account ++ endpoint
      bodyFields := some body
      qs := some query }
  let opts := if body.length = 0 then { opts with bodyFields := none } else opts
  if query.length = 0 then { opts with qs := none } else opts

/-- Function `basecampApiRequest` (lines 16-61): resolve the account, build the
options, issue the single request, and wrap any failure in `NodeApiError`
(lines 58-60).  Also returns the one request it issued. -/
def basecampApiRequest (ctx : HostCtx) (tp : Transport)
    (method endpoint : String) (body query : List (String × Json))
    (accountId : Option String) : Except EngineError Json × RequestOptions :=
  let account := resolveAccount accountId ctx
  let options := buildOptions method endpoint body query account
  (match tp options with
   | .ok response => .ok response
   | .error e => .error (.apiError ctx.nodeName e),
   options)

/-! ### Count-heuristic walk (`basecampApiRequestAllItems`, lines 116-148) -/

/-- The cast `(query.page as number)`: numeric read of a query value. -/
def asNum : Json → Nat
  | .num n => n
  | _ => 0

/-- Loop body of `basecampApiRequestAllItems` (lines 130-145), threading the
mutated `query` object, the accumulator and the request log; `none` means the
fuel ran out before the loop finished. -/
def basecampApiRequestAllItemsAux (ctx : HostCtx) (tp : Transport)
    (method endpoint : String) (body : List (String × Json))
    (accountId : Option String) :
    Nat → List (String × Json) → List Json → List RequestOptions →
    Option (Except EngineError (List Json) × List (String × Json) × List RequestOptions)
  | 0, _, _, _ => none
  | fuel + 1, query, acc, log =>
      match basecampApiRequest ctx tp method endpoint body query accountId with
      | (.error e, opts) => some (.error e, query, log ++ [opts])
      | (.ok responseData, opts) =>
          match responseData with
          | .arr items =>
              if items.length < 50 then
                some (.ok (acc ++ items), query, log ++ [opts])
              else
                basecampApiRequestAllItemsAux ctx tp method endpoint body accountId
                  fuel (setKey query "page" (.num (asNum ((assocFind query "page").getD .undefined) + 1)))
                  (acc ++ items) (log ++ [opts])
          | _ => some (.ok acc, query, log ++ [opts])

/-- Function `basecampApiRequestAllItems` (lines 116-148): set `query.page = 1`
(mutating the caller's query object) and run the do-while loop.  Returns the
collected items, the final state of the mutated query object, and the list of
requests issued. -/
def basecampApiRequestAllItems (ctx : HostCtx) (tp : Transport)
    (method endpoint : String) (body query : List (String × Json))
    (accountId : Option String) (fuel : Nat) :
    Option (Except EngineError (List Json) × List (String × Json) × List RequestOptions) :=
  basecampApiRequestAllItemsAux ctx tp method endpoint body accountId
    fuel (setKey query "page" (.num 1)) [] []

/-! ### Link-header walk (`basecampFetchAllPages`, lines 67-111) -/

/-- A full response as seen with `resolveWithFullResponse: true`:
headers plus parsed body. -/
structure LinkResponse where
  headers : List (String × String)
  body : Json

/-- Transport oracle for the full-response helper, keyed by the request URL
(the other options of lines 77-86 are fixed). -/
def LinkTransport : Type := String → Except String LinkResponse

/-- Lines 105-107: `res.headers && (res.headers.link || res.headers.Link)`,
then `link && /<([^>]+)>;\s*rel="next"/.exec(link)`, then
`m && m[1] ? m[1] : undefined`.  The lookup tries exactly the spellings
`link` and `Link`; an empty-string header value is falsy at both steps. -/
def getNextUrl (headers : List (String × String)) : Option String :=
  match jsOrStr (hdrFind headers "link") (hdrFind headers "Link") with
  | none => none
  | some link => if link = "" then none else execLinkNext link

/-- Loop body of `basecampFetchAllPages` (lines 76-108).  Note the absence of
any try/catch: a transport failure propagates as the unwrapped `rawError`.
Returns the accumulated items and the log of URLs requested; `none` means the
fuel ran out before the loop finished. -/
def basecampFetchAllPagesAux (world : LinkTransport) :
    Nat → String → List Json → List String →
    Option (Except EngineError (List Json) × List String)
  | 0, _, _, _ => none
  | fuel + 1, nextUrl, acc, log =>
      match world nextUrl with
      | .error e => some (.error (.rawError e), log ++ [nextUrl])
      | .ok res =>
          let acc' := match res.body with
            | .arr items => acc ++ items
            | _ => acc
          match getNextUrl res.headers with
          | some m => basecampFetchAllPagesAux world fuel m acc' (log ++ [nextUrl])
          | none => some (.ok acc', log ++ [nextUrl])

/-- Function `basecampFetchAllPages` (lines 67-111): resolve the account, build the
initial URL by concatenation (line 74), and follow `rel="next"` targets. -/
def basecampFetchAllPages (ctx : HostCtx) (world : LinkTransport)
    (endpoint : String) (accountId : Option String) (fuel : Nat) :
    Option (Except EngineError (List Json) × List String) :=
  let account := resolveAccount accountId ctx
  basecampFetchAllPagesAux world fuel
    ("https://3.basecampapi.com/" ++ account ++ endpoint) [] []

/-! ### DockResolver and OptionListBuilders (lines 188-799) -/

/-- A `{name, value}` dropdown entry; `name` stays a JS value because some
builders put a possibly-absent `title` there unchanged. -/
structure OptionEntry where
  name : Json
  value : String

/-- The lookup `project.dock?.find((d) => d.name === '<dockName>')`: `undefined` when the
dock is absent (or not an array) or no entry matches. -/
def dockFind (project : Json) (dockName : String) : Json :=
  match jGet project "dock" with
  | .arr entries => (entries.find? (fun d => jGet d "name" == Json.str dockName)).getD .undefined
  | _ => .undefined

/-- String content of a JS value expected to be a string. -/
def asString : Json → String
  | .str s => s
  | _ => ""

/-- Shared shape of the six single-entry builders (`getMessageBoards`,
`getCampfires`, `getSchedules`, `getQuestionnaires`, `getCardTables`,
`getTodosets`): fetch the project, look up one dock entry, return `[]` when
it is absent, else one entry with a fallback label. -/
def dockSingleBuilder (ctx : HostCtx) (tp : Transport) (projectId : String)
    (dockName fallback : String) :
    Except EngineError (List OptionEntry) × List RequestOptions :=
  match basecampApiRequest ctx tp "GET" ("/projects/" ++ projectId ++ ".json")
      [] [] (some ctx.accountParam) with
  | (.error e, opts) => (.error e, [opts])
  | (.ok project, opts) =>
      let entry := dockFind project dockName
      if truthy entry then
        (.ok [⟨jsOrJson (jGet entry "title") (.str fallback),
              jsToString (jGet entry "id")⟩], [opts])
      else
        (.ok [], [opts])

/-- Function `getCampfires` (lines 318-345). -/
def getCampfires (ctx : HostCtx) (tp : Transport) (projectId : String) :
    Except EngineError (List OptionEntry) × List RequestOptions :=
  dockSingleBuilder ctx tp projectId "chat" "Campfire"

/-- Function `getMessageBoards` (lines 286-313). -/
def getMessageBoards (ctx : HostCtx) (tp : Transport) (projectId : String) :
    Except EngineError (List OptionEntry) × List RequestOptions :=
  dockSingleBuilder ctx tp projectId "message_board" "Message Board"

/-- Function `getSchedules` (lines 412-439). -/
def getSchedules (ctx : HostCtx) (tp : Transport) (projectId : String) :
    Except EngineError (List OptionEntry) × List RequestOptions :=
  dockSingleBuilder ctx tp projectId "schedule" "Schedule"

/-- Function `getQuestionnaires` (lines 444-471). -/
def getQuestionnaires (ctx : HostCtx) (tp : Transport) (projectId : String) :
    Except EngineError (List OptionEntry) × List RequestOptions :=
  dockSingleBuilder ctx tp projectId "questionnaire" "Automatic Check-ins"

/-- Function `getCardTables` (lines 518-545). -/
def getCardTables (ctx : HostCtx) (tp : Transport) (projectId : String) :
    Except EngineError (List OptionEntry) × List RequestOptions :=
  dockSingleBuilder ctx tp projectId "kanban_board" "Card Table"

/-- Function `getTodosets` (lines 691-718). -/
def getTodosets (ctx : HostCtx) (tp : Transport) (projectId : String) :
    Except EngineError (List OptionEntry) × List RequestOptions :=
  dockSingleBuilder ctx tp projectId "todoset" "To-dos"

/-- Shared shape of the builders' `while (hasMore)` page loop
(`getTodolists` lines 240-263, `getVaults` lines 382-404, and the analogous
loops of `getQuestions`, `getDocuments`, `getUploads`, `getWebhooks`,
`getTemplates`): stop on a non-array or empty page without appending,
otherwise append the mapped entries and continue only while the page held at
least 50 items. -/
def bucketPagedLoop (ctx : HostCtx) (tp : Transport) (endpoint : String)
    (mk : Json → OptionEntry) :
    Nat → Nat → List OptionEntry → List RequestOptions →
    Option (Except EngineError (List OptionEntry) × List RequestOptions)
  | 0, _, _, _ => none
  | fuel + 1, page, acc, log =>
      match basecampApiRequest ctx tp "GET" endpoint [] [("page", .num page)]
          (some ctx.accountParam) with
      | (.error e, opts) => some (.error e, log ++ [opts])
      | (.ok response, opts) =>
          match response with
          | .arr items =>
              if items.length = 0 then
                some (.ok acc, log ++ [opts])
              else
                let acc' := acc ++ items.map mk
                if items.length ≥ 50 then
                  bucketPagedLoop ctx tp endpoint mk fuel (page + 1) acc' (log ++ [opts])
                else
                  some (.ok acc', log ++ [opts])
          | _ => some (.ok acc, log ++ [opts])

/-- The `{name: x.title, value: x.id.toString()}` entry mapping used by the
todolist and nested-vault loops. -/
def titleIdEntry (x : Json) : OptionEntry :=
  ⟨jGet x "title", jsToString (jGet x "id")⟩

/-- Function `getTodolists` (lines 206-266): fetch the project, read the todoset dock
entry's URL, extract ids with `/buckets\/(\d+)\/todosets\/(\d+)/`, return `[]`
when the entry or the match is missing, else run the page loop against
`/buckets/${projectId}/todosets/${todosetId}/todolists.json` — note the
source uses the caller's `projectId`, not the first capture group, as the
bucket segment, and only the second capture group (`urlParts[2]`). -/
def getTodolists (ctx : HostCtx) (tp : Transport) (projectId : String) (fuel : Nat) :
    Option (Except EngineError (List OptionEntry) × List RequestOptions) :=
  match basecampApiRequest ctx tp "GET" ("/projects/" ++ projectId ++ ".json")
      [] [] (some ctx.accountParam) with
  | (.error e, opts) => some (.error e, [opts])
  | (.ok project, opts) =>
      let todosetUrl := jGet (dockFind project "todoset") "url"
      if truthy todosetUrl then
        match matchBucketsTodosets (asString todosetUrl) with
        | none => some (.ok [], [opts])
        | some urlParts =>
            let todosetId := urlParts.2
            bucketPagedLoop ctx tp
              ("/buckets/" ++ projectId ++ "/todosets/" ++ todosetId ++ "/todolists.json")
              titleIdEntry fuel 1 [] [opts]
      else
        some (.ok [], [opts])

/-- The root-vault entry of `getVaults` (lines 371-376):
`{name: vault.title || 'Root Vault', value: vault.id.toString()}`. -/
def rootVaultEntry (vault : Json) : OptionEntry :=
  ⟨jsOrJson (jGet vault "title") (.str "Root Vault"),
   jsToString (jGet vault "id")⟩

/-- Function `getVaults` (lines 350-407): fetch the project, resolve the `vault`
dock entry, return `[]` when absent; otherwise seed the accumulator with the
root-vault entry (`title || 'Root Vault'`, stringified id) and list the
children with the page loop against
`/buckets/${projectId}/vaults/${vault.id}/vaults.json`. -/
def getVaults (ctx : HostCtx) (tp : Transport) (projectId : String) (fuel : Nat) :
    Option (Except EngineError (List OptionEntry) × List RequestOptions) :=
  match basecampApiRequest ctx tp "GET" ("/projects/" ++ projectId ++ ".json")
      [] [] (some ctx.accountParam) with
  | (.error e, opts) => some (.error e, [opts])
  | (.ok project, opts) =>
      let vault := dockFind project "vault"
      if truthy vault then
        bucketPagedLoop ctx tp
          ("/buckets/" ++ projectId ++ "/vaults/" ++ jsToString (jGet vault "id") ++ "/vaults.json")
          titleIdEntry fuel 1 [rootVaultEntry vault] [opts]
      else
        some (.ok [], [opts])

/-! ### Derived notions used to state the claims -/

/-- The options of the project fetch every builder performs
(`/projects/${projectId}.json`, no body, no query). -/
def projectRequestOptions (ctx : HostCtx) (projectId : String) : RequestOptions :=
  buildOptions "GET" ("/projects/" ++ projectId ++ ".json") [] [] ctx.accountParam

/-- The options of the `p`-th request of the count-heuristic walk: the
caller's query with `page` overwritten by `p`. -/
def pageOpts (method endpoint : String) (body query : List (String × Json))
    (account : String) (p : Nat) : RequestOptions :=
  buildOptions method endpoint body (setKey query "page" (.num p)) account

/-- The test `Array.isArray`. -/
def isArr : Json → Bool
  | .arr _ => true
  | _ => false

/-- Items one page of the Link-header walk contributes: the body's elements
when it is an array, nothing otherwise (also nothing on a failed fetch, a
case that never coexists with a successful walk). -/
def pageItems (world : LinkTransport) (u : String) : List Json :=
  match world u with
  | .ok r => match r.body with
    | .arr items => items
    | _ => []
  | .error _ => []

/-- Whether an `EngineError` is the wrapped `NodeApiError` form. -/
def isApiError : EngineError → Bool
  | .apiError _ _ => true
  | .rawError _ => false

/-- ASCII lowercasing, character by character. -/
def lowerAscii (s : String) : String :=
  String.mk (s.toList.map (fun c =>
    if 'A' ≤ c ∧ c ≤ 'Z' then Char.ofNat (c.toNat + 32) else c))

/-- Modelled from the spec: a genuinely case-insensitive header lookup
("case-insensitive header name lookup required"), for comparison with the
source's two-spelling lookup. -/
def hdrFindCaseInsensitive (l : List (String × String)) (k : String) : Option String :=
  (l.find? (fun p => lowerAscii p.1 = lowerAscii k)).map Prod.snd

/-- Modelled from the spec: "a response whose `Link` header (looked up
case-insensitively) contains a `rel=\"next\"` target". -/
def hasNextCaseInsensitive (headers : List (String × String)) : Bool :=
  match hdrFindCaseInsensitive headers "link" with
  | some s => (execLinkNext s).isSome
  | none => false

/-! ### Concrete hosts, transports and worlds for witnesses and
counterexamples -/

/-- A concrete host context: account parameter `9999`, node name `Basecamp`. -/
def ctxW : HostCtx := ⟨"9999", "Basecamp"⟩

/-- A transport whose every page is the empty array. -/
def tpEmpty : Transport := fun _ => .ok (.arr [])

/-- A transport whose every response is a non-array body. -/
def tpNonArr : Transport := fun _ => .ok (.obj [("error", .str "maintenance")])

/-- A transport that always fails. -/
def tpFail : Transport := fun _ => .error "boom"

/-- A full-response world that always fails. -/
def worldFail : LinkTransport := fun _ => .error "boom"

/-- A 50-item page of numbered items. -/
def page50 : List Json := (List.range 50).map Json.num

/-- The two pages of the C1 witness walk: 50 items, then 1. -/
def C1pages : List (List Json) := [page50, [Json.num 100]]

/-- Transport serving `C1pages` keyed on the `page` query value. -/
def C1tp : Transport := fun o =>
  match o.qs with
  | some [("page", Json.num 1)] => .ok (.arr page50)
  | some [("page", Json.num 2)] => .ok (.arr [Json.num 100])
  | _ => .error "unexpected"

/-- Transport for the C1 counterexample: a full page of 50 items followed by
an empty last page (`k = 0`). -/
def C1xtp : Transport := fun o =>
  match o.qs with
  | some [("page", Json.num 1)] => .ok (.arr page50)
  | some [("page", Json.num 2)] => .ok (.arr [])
  | _ => .error "unexpected"

/-- The output of the C10 witness run: one empty page, final query carrying
`page = 1`. -/
def C10out : Except EngineError (List Json) × List (String × Json) × List RequestOptions :=
  (.ok [], setKey [] "page" (.num 1), [pageOpts "GET" "/things.json" [] [] "9999" 1])

/-- First and second URLs of the concrete Link-header walks. -/
def urlA : String := "https://3.basecampapi.com/9999/things.json"

/-- Second URL of the concrete Link-header walks (taken from a Link header,
so it carries its own query). -/
def urlB : String := "https://3.basecampapi.com/9999/things.json?page=2"

/-- C2 counterexample world: the first response's headers carry a
`rel="next"` target under the spelling `LINK`, which a case-insensitive
lookup would find. -/
def C2world : LinkTransport := fun u =>
  if u = urlA then
    .ok ⟨[("LINK", "<" ++ urlB ++ ">; rel=\"next\"")], .arr [Json.num 1]⟩
  else .error "unexpected"

/-- C2 witness world: a two-page chain under the spelling `link`. -/
def C2chainWorld : LinkTransport := fun u =>
  if u = urlA then
    .ok ⟨[("link", "<" ++ urlB ++ ">; rel=\"next\"")], .arr [Json.num 1]⟩
  else if u = urlB then
    .ok ⟨[], .arr [Json.num 2]⟩
  else .error "unexpected"

/-- C9 counterexample world: the first page is an empty array yet carries a
`rel="next"` link to a non-empty page. -/
def C9world : LinkTransport := fun u =>
  if u = urlA then
    .ok ⟨[("link", "<" ++ urlB ++ ">; rel=\"next\"")], .arr []⟩
  else if u = urlB then
    .ok ⟨[], .arr [Json.num 7]⟩
  else .error "unexpected"

/-- A full-response world whose every page is empty with no Link header. -/
def emptyPageWorld : LinkTransport := fun _ => .ok ⟨[], .arr []⟩

/-- The project object of the C3 counterexample: its todoset dock entry's URL
names bucket `55`, which differs from the caller's project id `123`. -/
def project3 : Json :=
  .obj [("dock", .arr [
    .obj [("name", .str "todoset"), ("id", .num 77), ("title", .str "To-dos"),
          ("url", .str "https://3.basecampapi.com/9999/buckets/55/todosets/77")]])]

/-- C3 transport: serves `project3` for the project fetch and an empty page
for any todolist listing. -/
def C3tp : Transport := fun o =>
  if o.url = "https://3.basecampapi.com/9999/projects/123.json" then .ok project3
  else .ok (.arr [])

/-- The C5 scenario's project: dock includes
`{name: "vault", id: 55, title: "Docs"}`. -/
def project5 : Json :=
  .obj [("dock", .arr [
    .obj [("name", .str "vault"), ("id", .num 55), ("title", .str "Docs")]])]

/-- First child page of the C5 scenario: 50 vaults. -/
def vaultPage1 : List Json :=
  (List.range 50).map (fun i => .obj [("title", .str ("Folder " ++ toString i)), ("id", .num (1000 + i))])

/-- Second child page of the C5 scenario: 3 vaults. -/
def vaultPage2 : List Json :=
  (List.range 3).map (fun i => .obj [("title", .str ("Tail " ++ toString i)), ("id", .num (2000 + i))])

/-- C5 transport: the project fetch yields `project5`; the nested-vault
listing yields `vaultPage1` then `vaultPage2`. -/
def C5tp : Transport := fun o =>
  if o.url = "https://3.basecampapi.com/9999/projects/123.json" then .ok project5
  else if o.url = "https://3.basecampapi.com/9999/buckets/123/vaults/55/vaults.json" then
    match o.qs with
    | some [("page", Json.num 1)] => .ok (.arr vaultPage1)
    | some [("page", Json.num 2)] => .ok (.arr vaultPage2)
    | _ => .error "unexpected"
  else .error "unexpected"

/-- The expected output of the C5 scenario: the root vault first, then the
53 children in page order. -/
def C5expected : List OptionEntry :=
  ⟨.str "Docs", "55"⟩ :: (vaultPage1 ++ vaultPage2).map titleIdEntry

/-- A project whose dock is present but contains no entries at all. -/
def emptyDockProject : Json := .obj [("dock", .arr [])]

/-- Transport serving `emptyDockProject` for every request. -/
def C7tp : Transport := fun _ => .ok emptyDockProject

/-! ## Helper lemmas -/

theorem buildOptions_url (m ep : String) (b q : List (String × Json)) (a : String) :
    (buildOptions m ep b q a).url = "https://3.basecampapi.com/" ++ a ++ ep := by
  unfold buildOptions
  dsimp only
  split <;> split <;> rfl

theorem resolveAccount_param (ctx : HostCtx) :
    resolveAccount (some ctx.accountParam) ctx = ctx.accountParam := by
  simp [resolveAccount]

theorem resolveAccount_some (ctx : HostCtx) (a : String) (h : a ≠ "") :
    resolveAccount (some a) ctx = a := by
  simp [resolveAccount, h]

theorem basecampApiRequest_snd (ctx : HostCtx) (tp : Transport)
    (m ep : String) (b q : List (String × Json)) (aid : Option String) :
    (basecampApiRequest ctx tp m ep b q aid).2
      = buildOptions m ep b q (resolveAccount aid ctx) := rfl

theorem setKey_setKey (q : List (String × Json)) (k : String) (v v' : Json) :
    setKey (setKey q k v) k v' = setKey q k v' := by
  induction q with
  | nil => simp [setKey]
  | cons p rest ih =>
      obtain ⟨k0, v0⟩ := p
      by_cases h : k0 = k
      · simp [setKey, h]
      · simp [setKey, h, ih]

theorem assocFind_setKey (q : List (String × Json)) (k : String) (v : Json) :
    assocFind (setKey q k v) k = some v := by
  induction q with
  | nil => simp [setKey, assocFind, List.find?]
  | cons p rest ih =>
      obtain ⟨k0, v0⟩ := p
      by_cases h : k0 = k
      · simp [setKey, h, assocFind, List.find?]
      · simp only [setKey, h, if_false, ite_false]
        simpa [assocFind, List.find?, h] using ih

theorem cons_map_range {α : Type} (g : Nat → α) (k : Nat) :
    g 0 :: (List.range k).map (fun i => g (i + 1)) = (List.range (k + 1)).map g := by
  rw [List.range_succ_eq_map]
  simp [Function.comp, Nat.succ_eq_add_one]

/-- Structure of a completed count-heuristic walk starting at page `p`: the
final query is the caller's query with `page` overwritten by the last page
requested, and the request log extends the incoming log with exactly the
per-page options of pages `p, p+1, …`, in order. -/
theorem allItemsAux_shape (ctx : HostCtx) (tp : Transport) (m ep : String)
    (b query : List (String × Json)) (aid : Option String) :
    ∀ (fuel p : Nat) (acc : List Json) (log : List RequestOptions) out,
    basecampApiRequestAllItemsAux ctx tp m ep b aid fuel
        (setKey query "page" (.num p)) acc log = some out →
    ∃ k,
      out.2.1 = setKey query "page" (.num (p + k))
      ∧ out.2.2 = log ++ (List.range (k + 1)).map
          (fun i => pageOpts m ep b query (resolveAccount aid ctx) (p + i)) := by
  intro fuel
  induction fuel with
  | zero => intro p acc log out h; exact absurd h (by simp [basecampApiRequestAllItemsAux])
  | succ f ih =>
      intro p acc log out h
      rw [basecampApiRequestAllItemsAux] at h
      simp only [basecampApiRequest] at h
      cases htp : tp (buildOptions m ep b (setKey query "page" (.num p))
          (resolveAccount aid ctx)) with
      | error e =>
          rw [htp] at h
          simp only [Option.some.injEq] at h
          refine ⟨0, ?_, ?_⟩
          · rw [← h]; simp
          · rw [← h]; simp [pageOpts, List.range_succ, List.range_zero]
      | ok resp =>
          rw [htp] at h
          cases resp with
          | arr items =>
              by_cases hlen : items.length < 50
              · simp only [hlen, if_true, ite_true, Option.some.injEq] at h
                refine ⟨0, ?_, ?_⟩
                · rw [← h]; simp
                · rw [← h]; simp [pageOpts, List.range_succ, List.range_zero]
              · simp only [hlen, if_false, ite_false] at h
                rw [assocFind_setKey] at h
                simp only [Option.getD_some, asNum, setKey_setKey] at h
                obtain ⟨k, hq, hlog⟩ := ih (p + 1) (acc ++ items)
                  (log ++ [buildOptions m ep b (setKey query "page" (.num p))
                    (resolveAccount aid ctx)]) out h
                refine ⟨k + 1, ?_, ?_⟩
                · rw [hq]
                  congr 2
                  omega
                · rw [hlog, List.append_assoc]
                  congr 1
                  rw [← cons_map_range
                    (fun i => pageOpts m ep b query (resolveAccount aid ctx) (p + i)) (k + 1)]
                  simp only [List.singleton_append, Nat.add_zero]
                  refine congrArg₂ List.cons rfl ?_
                  apply List.map_congr_left
                  intro a _
                  have hpa : p + 1 + a = p + (a + 1) := by omega
                  rw [hpa]
          | null =>
              simp only [Option.some.injEq] at h
              exact ⟨0, by rw [← h]; simp, by rw [← h]; simp [pageOpts, List.range_succ, List.range_zero]⟩
          | undefined =>
              simp only [Option.some.injEq] at h
              exact ⟨0, by rw [← h]; simp, by rw [← h]; simp [pageOpts, List.range_succ, List.range_zero]⟩
          | bool x =>
              simp only [Option.some.injEq] at h
              exact ⟨0, by rw [← h]; simp, by rw [← h]; simp [pageOpts, List.range_succ, List.range_zero]⟩
          | num x =>
              simp only [Option.some.injEq] at h
              exact ⟨0, by rw [← h]; simp, by rw [← h]; simp [pageOpts, List.range_succ, List.range_zero]⟩
          | str x =>
              simp only [Option.some.injEq] at h
              exact ⟨0, by rw [← h]; simp, by rw [← h]; simp [pageOpts, List.range_succ, List.range_zero]⟩
          | obj x =>
              simp only [Option.some.injEq] at h
              exact ⟨0, by rw [← h]; simp, by rw [← h]; simp [pageOpts, List.range_succ, List.range_zero]⟩

/-- Exact behaviour of the count-heuristic walk over a concrete paged
sequence in which every page but the last holds exactly 50 items and the
last fewer than 50: it requests pages `p, p+1, …` in order, one request per
page, and returns the concatenation of all pages. -/
theorem allItemsAux_pages (ctx : HostCtx) (tp : Transport) (m ep : String)
    (b query : List (String × Json)) (aid : Option String) :
    ∀ (ps : List (List Json)) (p fuel : Nat) (acc : List Json)
      (log : List RequestOptions),
    ps ≠ [] →
    (∀ i, i < ps.length - 1 → (ps.getD i []).length = 50) →
    (ps.getLast?.getD []).length < 50 →
    (∀ i, i < ps.length →
      tp (pageOpts m ep b query (resolveAccount aid ctx) (p + i))
        = .ok (.arr (ps.getD i []))) →
    ps.length ≤ fuel →
    basecampApiRequestAllItemsAux ctx tp m ep b aid fuel
        (setKey query "page" (.num p)) acc log
      = some (.ok (acc ++ ps.flatten),
              setKey query "page" (.num (p + (ps.length - 1))),
              log ++ (List.range ps.length).map
                (fun i => pageOpts m ep b query (resolveAccount aid ctx) (p + i))) := by
  intro ps
  induction ps with
  | nil => intro p fuel acc log hne; exact absurd rfl hne
  | cons l rest ih =>
      intro p fuel acc log _ h50 hlast htp hfuel
      obtain ⟨f, rfl⟩ : ∃ f, fuel = f + 1 :=
        ⟨fuel - 1, by simp only [List.length_cons] at hfuel; omega⟩
      rw [basecampApiRequestAllItemsAux]
      simp only [basecampApiRequest]
      have htp0 := htp 0 (by simp)
      simp only [Nat.add_zero] at htp0
      have hopts : pageOpts m ep b query (resolveAccount aid ctx) p
          = buildOptions m ep b (setKey query "page" (.num p)) (resolveAccount aid ctx) := rfl
      rw [hopts] at htp0
      rw [htp0]
      have hget0 : (l :: rest).getD 0 [] = l := rfl
      rw [hget0]
      cases rest with
      | nil =>
          have hl : l.length < 50 := by simpa using hlast
          simp only [hl, if_true, ite_true]
          simp [pageOpts, List.range_succ, List.range_zero]
      | cons l2 rest2 =>
          have hl : l.length = 50 := by
            have := h50 0 (by simp)
            simpa using this
          have hlen : ¬ l.length < 50 := by omega
          simp only [hlen, if_false, ite_false]
          rw [assocFind_setKey]
          simp only [Option.getD_some, asNum, setKey_setKey]
          have hrec := ih (p + 1) f (acc ++ l)
            (log ++ [buildOptions m ep b (setKey query "page" (.num p))
              (resolveAccount aid ctx)])
            (by simp)
            (fun i hi => by
              have := h50 (i + 1) (by simp at hi ⊢; omega)
              simpa using this)
            (by simpa using hlast)
            (fun i hi => by
              have := htp (i + 1) (by simp at hi ⊢; omega)
              have harith : p + (i + 1) = p + 1 + i := by omega
              rw [harith] at this
              simpa using this)
            (by simp only [List.length_cons] at hfuel ⊢; omega)
          rw [hrec]
          have h2 : p + 1 + ((l2 :: rest2).length - 1)
              = p + ((l :: l2 :: rest2).length - 1) := by
            simp only [List.length_cons]; omega
          rw [h2]
          have h3 : (log ++ [buildOptions m ep b (setKey query "page" (.num p))
                (resolveAccount aid ctx)])
              ++ (List.range (l2 :: rest2).length).map
                (fun i => pageOpts m ep b query (resolveAccount aid ctx) (p + 1 + i))
              = log ++ (List.range (l :: l2 :: rest2).length).map
                (fun i => pageOpts m ep b query (resolveAccount aid ctx) (p + i)) := by
            rw [List.append_assoc]
            congr 1
            rw [show (l :: l2 :: rest2).length = (l2 :: rest2).length + 1 from rfl]
            rw [← cons_map_range
              (fun i => pageOpts m ep b query (resolveAccount aid ctx) (p + i))
              ((l2 :: rest2).length)]
            simp only [List.singleton_append, Nat.add_zero]
            refine congrArg₂ List.cons rfl ?_
            apply List.map_congr_left
            intro a _
            have hpa : p + 1 + a = p + (a + 1) := by omega
            rw [hpa]
          rw [h3]
          simp

/-- Total length of such a paged sequence: `50` per page except the last. -/
theorem pages_join_length :
    ∀ (ps : List (List Json)), ps ≠ [] →
    (∀ i, i < ps.length - 1 → (ps.getD i []).length = 50) →
    ps.flatten.length = 50 * (ps.length - 1) + (ps.getLast?.getD []).length := by
  intro ps
  induction ps with
  | nil => intro h; exact absurd rfl h
  | cons l rest ih =>
      intro _ h50
      cases rest with
      | nil => simp
      | cons l2 rest2 =>
          have hl : l.length = 50 := by
            have := h50 0 (by simp)
            simpa using this
          have hrec := ih (by simp)
            (fun i hi => by
              have := h50 (i + 1) (by simp at hi ⊢; omega)
              simpa using this)
          simp only [List.flatten_cons, List.length_append, List.length_cons] at hrec ⊢
          rw [List.getLast?_cons_cons]
          rw [hrec, hl]
          have : (l2 :: rest2).length = rest2.length + 1 := by simp
          simp only [List.length_cons] at this ⊢
          omega

/-- Every error escaping the count-heuristic walk is the wrapped
`NodeApiError` carrying the node identity and the transport's cause, and it
is raised by the walk's final request. -/
theorem allItemsAux_error (ctx : HostCtx) (tp : Transport) (m ep : String)
    (b : List (String × Json)) (aid : Option String) :
    ∀ (fuel : Nat) (q : List (String × Json)) (acc : List Json)
      (log : List RequestOptions) out err,
    basecampApiRequestAllItemsAux ctx tp m ep b aid fuel q acc log = some out →
    out.1 = .error err →
    ∃ e opts, err = .apiError ctx.nodeName e
      ∧ out.2.2.getLast? = some opts ∧ tp opts = .error e := by
  intro fuel
  induction fuel with
  | zero =>
      intro q acc log out err h
      exact absurd h (by simp [basecampApiRequestAllItemsAux])
  | succ f ih =>
      intro q acc log out err h herr
      rw [basecampApiRequestAllItemsAux] at h
      simp only [basecampApiRequest] at h
      cases htp : tp (buildOptions m ep b q (resolveAccount aid ctx)) with
      | error e =>
          rw [htp] at h
          simp only [Option.some.injEq] at h
          rw [← h] at herr
          simp only at herr
          refine ⟨e, buildOptions m ep b q (resolveAccount aid ctx), ?_, ?_, htp⟩
          · cases herr; rfl
          · rw [← h]
            simp [List.getLast?_concat]
      | ok resp =>
          rw [htp] at h
          cases resp with
          | arr items =>
              by_cases hlen : items.length < 50
              · simp only [hlen, if_true, ite_true, Option.some.injEq] at h
                rw [← h] at herr
                simp at herr
              · simp only [hlen, if_false, ite_false] at h
                exact ih _ _ _ out err h herr
          | null =>
              simp only [Option.some.injEq] at h
              rw [← h] at herr; simp at herr
          | undefined =>
              simp only [Option.some.injEq] at h
              rw [← h] at herr; simp at herr
          | bool x =>
              simp only [Option.some.injEq] at h
              rw [← h] at herr; simp at herr
          | num x =>
              simp only [Option.some.injEq] at h
              rw [← h] at herr; simp at herr
          | str x =>
              simp only [Option.some.injEq] at h
              rw [← h] at herr; simp at herr
          | obj x =>
              simp only [Option.some.injEq] at h
              rw [← h] at herr; simp at herr

/-! ## Claim theorems -/

/-- C1: for every paged sequence in which every page except the last returns
exactly 50 items and the last returns `k < 50` items with `k ≥ 1`,
`basecampApiRequestAllItems` issues exactly `⌈n/50⌉` requests (pages `1, 2, …`
in order) and returns all `n` items in order; and whenever the first page
already returns fewer than 50 items (including zero), it terminates after
exactly 1 request. -/
theorem C1_collectByPage_requests_and_items :
    (∀ (ctx : HostCtx) (tp : Transport) (m ep : String)
       (b query : List (String × Json)) (aid : Option String)
       (ps : List (List Json)) (fuel : Nat),
      ps ≠ [] →
      (∀ i, i < ps.length - 1 → (ps.getD i []).length = 50) →
      1 ≤ (ps.getLast?.getD []).length →
      (ps.getLast?.getD []).length < 50 →
      (∀ i, i < ps.length →
        tp (pageOpts m ep b query (resolveAccount aid ctx) (1 + i))
          = .ok (.arr (ps.getD i []))) →
      ps.length ≤ fuel →
      basecampApiRequestAllItems ctx tp m ep b query aid fuel
        = some (.ok ps.flatten, setKey query "page" (.num ps.length),
            (List.range ps.length).map
              (fun i => pageOpts m ep b query (resolveAccount aid ctx) (1 + i)))
      ∧ ps.length = (ps.flatten.length + 49) / 50)
    ∧ (∀ (ctx : HostCtx) (tp : Transport) (m ep : String)
         (b query : List (String × Json)) (aid : Option String)
         (fuel : Nat) (items0 : List Json),
        1 ≤ fuel →
        tp (pageOpts m ep b query (resolveAccount aid ctx) 1) = .ok (.arr items0) →
        items0.length < 50 →
        basecampApiRequestAllItems ctx tp m ep b query aid fuel
          = some (.ok items0, setKey query "page" (.num 1),
              [pageOpts m ep b query (resolveAccount aid ctx) 1])) := by
  constructor
  · intro ctx tp m ep b query aid ps fuel hne h50 hk1 hk50 htp hfuel
    have hmain := allItemsAux_pages ctx tp m ep b query aid ps 1 fuel [] [] hne h50 hk50 htp hfuel
    have hlen1 : 1 ≤ ps.length := by
      cases ps with
      | nil => exact absurd rfl hne
      | cons x xs => simp
    constructor
    · rw [basecampApiRequestAllItems, hmain]
      have : 1 + (ps.length - 1) = ps.length := by omega
      rw [this]
      simp
    · have hjoin := pages_join_length ps hne h50
      omega
  · intro ctx tp m ep b query aid fuel items0 hfuel htp hlt
    obtain ⟨f, rfl⟩ : ∃ f, fuel = f + 1 := ⟨fuel - 1, by omega⟩
    rw [basecampApiRequestAllItems, basecampApiRequestAllItemsAux]
    simp only [basecampApiRequest]
    have hopts : pageOpts m ep b query (resolveAccount aid ctx) 1
        = buildOptions m ep b (setKey query "page" (.num 1)) (resolveAccount aid ctx) := rfl
    rw [hopts] at htp
    rw [htp]
    simp only [hlt, if_true, ite_true]
    rw [hopts]
    simp

/-- C1 witness: a concrete two-page walk (50 items then 1) issues 2 requests
and returns all 51 items, `2 = ⌈51/50⌉`; and a concrete empty first page
terminates after exactly 1 request. -/
theorem C1_collectByPage_requests_and_items_witness :
    (basecampApiRequestAllItems ctxW C1tp "GET" "/things.json" [] [] (some "9999") 2
        = some (.ok C1pages.flatten, setKey [] "page" (.num C1pages.length),
            (List.range C1pages.length).map
              (fun i => pageOpts "GET" "/things.json" [] []
                (resolveAccount (some "9999") ctxW) (1 + i)))
      ∧ C1pages.length = (C1pages.flatten.length + 49) / 50)
    ∧ basecampApiRequestAllItems ctxW tpEmpty "GET" "/things.json" [] [] (some "9999") 3
        = some (.ok [], setKey [] "page" (.num 1),
            [pageOpts "GET" "/things.json" [] [] (resolveAccount (some "9999") ctxW) 1]) := by
  constructor
  · exact C1_collectByPage_requests_and_items.1 ctxW C1tp "GET" "/things.json" [] []
      (some "9999") C1pages 2
      (by simp [C1pages])
      (by
        intro i hi
        have : i = 0 := by simp [C1pages] at hi; omega
        subst this
        simp [C1pages, page50])
      (by simp [C1pages])
      (by simp [C1pages])
      (by
        intro i hi
        have h2 : i = 0 ∨ i = 1 := by simp [C1pages] at hi; omega
        rcases h2 with rfl | rfl <;> rfl)
      (by simp [C1pages])
  · exact C1_collectByPage_requests_and_items.2 ctxW tpEmpty "GET" "/things.json" [] []
      (some "9999") 3 []
      (by omega) rfl (by simp)

/-- C1 counterexample: when the last page is empty (`k = 0`, here one full
page of 50 followed by an empty page), the walk issues 2 requests although
`⌈n/50⌉ = ⌈50/50⌉ = 1`, so the claim's request count fails for `k = 0`. -/
theorem C1_collectByPage_empty_last_page_counterexample :
    basecampApiRequestAllItems ctxW C1xtp "GET" "/things.json" [] [] (some "9999") 3
      = some (.ok page50, setKey [] "page" (.num 2),
          [pageOpts "GET" "/things.json" [] [] "9999" 1,
           pageOpts "GET" "/things.json" [] [] "9999" 2])
    ∧ (page50.length + 49) / 50 = 1 := by
  exact ⟨rfl, by simp [page50]⟩

/-- C10: every completed count-heuristic walk returns the caller's query
object with `page` overwritten in place by the last page number requested
(which equals the number of requests issued), and its first request already
carries `page = 1`, overwriting any caller-supplied value. -/
theorem C10_query_page_mutated_in_place (ctx : HostCtx) (tp : Transport)
    (m ep : String) (b query : List (String × Json)) (aid : Option String)
    (fuel : Nat)
    (out : Except EngineError (List Json) × List (String × Json) × List RequestOptions)
    (h : basecampApiRequestAllItems ctx tp m ep b query aid fuel = some out) :
    out.2.1 = setKey query "page" (.num out.2.2.length)
    ∧ 1 ≤ out.2.2.length
    ∧ out.2.2.head? = some (pageOpts m ep b query (resolveAccount aid ctx) 1) := by
  obtain ⟨k, hq, hlog⟩ := allItemsAux_shape ctx tp m ep b query aid fuel 1 [] [] out h
  refine ⟨?_, ?_, ?_⟩
  · rw [hq, hlog]
    simp [Nat.add_comm]
  · rw [hlog]; simp
  · rw [hlog, List.range_succ_eq_map]
    simp

/-- C10 witness: the shape theorem instantiated at a concrete one-page walk. -/
theorem C10_query_page_mutated_in_place_witness :
    C10out.2.1 = setKey [] "page" (.num C10out.2.2.length)
    ∧ 1 ≤ C10out.2.2.length
    ∧ C10out.2.2.head? = some (pageOpts "GET" "/things.json" [] []
        (resolveAccount (some "9999") ctxW) 1) :=
  C10_query_page_mutated_in_place ctxW tpEmpty "GET" "/things.json" [] []
    (some "9999") 3 C10out rfl

/-- C10 counterexample: when the caller's query already holds `page = 1` and
the walk ends after one page, the returned query object equals the caller's
original value, so "the query argument is not left unchanged by the call"
fails on this input. -/
theorem C10_query_unchanged_counterexample :
    basecampApiRequestAllItems ctxW tpEmpty "GET" "/things.json" []
        [("page", Json.num 1)] (some "9999") 3
      = some (.ok [], [("page", Json.num 1)],
          [pageOpts "GET" "/things.json" [] [("page", Json.num 1)] "9999" 1]) := rfl

/-- C9: an empty first page (empty array or non-array body) is never an
error.  The count-heuristic walk then returns `[]` after its single request;
the Link-header walk returns `[]` after its single request provided that
first response also carries no `rel="next"` link (with such a link it keeps
walking — see the counterexample). -/
theorem C9_empty_first_page_not_failure :
    (∀ (ctx : HostCtx) (tp : Transport) (m ep : String)
       (b query : List (String × Json)) (aid : Option String) (fuel : Nat),
      1 ≤ fuel →
      tp (pageOpts m ep b query (resolveAccount aid ctx) 1) = .ok (.arr []) →
      basecampApiRequestAllItems ctx tp m ep b query aid fuel
        = some (.ok [], setKey query "page" (.num 1),
            [pageOpts m ep b query (resolveAccount aid ctx) 1]))
    ∧ (∀ (ctx : HostCtx) (tp : Transport) (m ep : String)
         (b query : List (String × Json)) (aid : Option String) (fuel : Nat)
         (resp : Json),
        1 ≤ fuel →
        tp (pageOpts m ep b query (resolveAccount aid ctx) 1) = .ok resp →
        isArr resp = false →
        basecampApiRequestAllItems ctx tp m ep b query aid fuel
          = some (.ok [], setKey query "page" (.num 1),
              [pageOpts m ep b query (resolveAccount aid ctx) 1]))
    ∧ (∀ (ctx : HostCtx) (world : LinkTransport) (ep : String)
         (aid : Option String) (fuel : Nat) (res : LinkResponse),
        1 ≤ fuel →
        world ("https://3.basecampapi.com/" ++ resolveAccount aid ctx ++ ep) = .ok res →
        (res.body = .arr [] ∨ isArr res.body = false) →
        getNextUrl res.headers = none →
        basecampFetchAllPages ctx world ep aid fuel
          = some (.ok [], ["https://3.basecampapi.com/" ++ resolveAccount aid ctx ++ ep])) := by
  refine ⟨?_, ?_, ?_⟩
  · intro ctx tp m ep b query aid fuel hfuel htp
    obtain ⟨f, rfl⟩ : ∃ f, fuel = f + 1 := ⟨fuel - 1, by omega⟩
    rw [basecampApiRequestAllItems, basecampApiRequestAllItemsAux]
    simp only [basecampApiRequest]
    have hopts : pageOpts m ep b query (resolveAccount aid ctx) 1
        = buildOptions m ep b (setKey query "page" (.num 1)) (resolveAccount aid ctx) := rfl
    rw [hopts] at htp
    rw [htp]
    simp only [List.length_nil, Nat.zero_lt_succ, if_true, ite_true]
    rw [hopts]
    simp
  · intro ctx tp m ep b query aid fuel resp hfuel htp hresp
    obtain ⟨f, rfl⟩ : ∃ f, fuel = f + 1 := ⟨fuel - 1, by omega⟩
    rw [basecampApiRequestAllItems, basecampApiRequestAllItemsAux]
    simp only [basecampApiRequest]
    have hopts : pageOpts m ep b query (resolveAccount aid ctx) 1
        = buildOptions m ep b (setKey query "page" (.num 1)) (resolveAccount aid ctx) := rfl
    rw [hopts] at htp
    rw [htp]
    cases resp with
    | arr items => simp [isArr] at hresp
    | null => rw [hopts]; simp
    | undefined => rw [hopts]; simp
    | bool x => rw [hopts]; simp
    | num x => rw [hopts]; simp
    | str x => rw [hopts]; simp
    | obj x => rw [hopts]; simp
  · intro ctx world ep aid fuel res hfuel hworld hbody hnext
    obtain ⟨f, rfl⟩ : ∃ f, fuel = f + 1 := ⟨fuel - 1, by omega⟩
    rw [basecampFetchAllPages, basecampFetchAllPagesAux]
    rw [hworld]
    obtain ⟨headers, body⟩ := res
    simp only at hnext hbody ⊢
    rw [hnext]
    rcases hbody with hb | hb
    · rw [hb]; simp
    · cases body with
      | arr items => simp [isArr] at hb
      | null => simp
      | undefined => simp
      | bool x => simp
      | num x => simp
      | str x => simp
      | obj x => simp

/-- C9 witness: the three parts instantiated on concrete empty-page
transports. -/
theorem C9_empty_first_page_not_failure_witness :
    basecampApiRequestAllItems ctxW tpEmpty "GET" "/things.json" [] [] (some "9999") 2
      = some (.ok [], setKey [] "page" (.num 1),
          [pageOpts "GET" "/things.json" [] [] (resolveAccount (some "9999") ctxW) 1])
    ∧ basecampApiRequestAllItems ctxW tpNonArr "GET" "/things.json" [] [] (some "9999") 2
      = some (.ok [], setKey [] "page" (.num 1),
          [pageOpts "GET" "/things.json" [] [] (resolveAccount (some "9999") ctxW) 1])
    ∧ basecampFetchAllPages ctxW emptyPageWorld "/things.json" (some "9999") 2
      = some (.ok [],
          ["https://3.basecampapi.com/" ++ resolveAccount (some "9999") ctxW ++ "/things.json"]) :=
  ⟨C9_empty_first_page_not_failure.1 ctxW tpEmpty "GET" "/things.json" [] []
      (some "9999") 2 (by omega) rfl,
   C9_empty_first_page_not_failure.2.1 ctxW tpNonArr "GET" "/things.json" [] []
      (some "9999") 2 (.obj [("error", .str "maintenance")]) (by omega) rfl rfl,
   C9_empty_first_page_not_failure.2.2 ctxW emptyPageWorld "/things.json"
      (some "9999") 2 ⟨[], .arr []⟩ (by omega) rfl (Or.inl rfl) rfl⟩

/-- C9 counterexample: a successful empty first page that still carries a
`rel="next"` link does not end the Link-header walk — the result is the
second page's items, not the empty list the claim demands. -/
theorem C9_empty_first_page_counterexample :
    basecampFetchAllPages ctxW C9world "/things.json" (some "9999") 5
      = some (.ok [Json.num 7], [urlA, urlB])
    ∧ [Json.num 7] ≠ ([] : List Json) := by
  exact ⟨rfl, by simp⟩

/-- The Link-header walk's request log always extends the incoming log with
the current URL first. -/
theorem fetchAux_log (world : LinkTransport) :
    ∀ (fuel : Nat) (u : String) (acc : List Json) (log : List String) out,
    basecampFetchAllPagesAux world fuel u acc log = some out →
    ∃ tail, out.2 = log ++ u :: tail := by
  intro fuel
  induction fuel with
  | zero =>
      intro u acc log out h
      exact absurd h (by simp [basecampFetchAllPagesAux])
  | succ f ih =>
      intro u acc log out h
      rw [basecampFetchAllPagesAux] at h
      cases hw : world u with
      | error e =>
          rw [hw] at h
          simp only [Option.some.injEq] at h
          exact ⟨[], by rw [← h]⟩
      | ok res =>
          rw [hw] at h
          dsimp only at h
          cases hn : getNextUrl res.headers with
          | none =>
              rw [hn] at h
              simp only [Option.some.injEq] at h
              exact ⟨[], by rw [← h]⟩
          | some mnext =>
              rw [hn] at h
              obtain ⟨tail, htail⟩ := ih mnext _ _ out h
              exact ⟨mnext :: tail, by rw [htail]; simp⟩

/-- Every error escaping the Link-header walk is the unwrapped transport
cause raised by the walk's final request. -/
theorem fetchAux_error (world : LinkTransport) :
    ∀ (fuel : Nat) (u : String) (acc : List Json) (log : List String) out err,
    basecampFetchAllPagesAux world fuel u acc log = some out →
    out.1 = .error err →
    ∃ e ulast, err = .rawError e
      ∧ out.2.getLast? = some ulast ∧ world ulast = .error e := by
  intro fuel
  induction fuel with
  | zero =>
      intro u acc log out err h
      exact absurd h (by simp [basecampFetchAllPagesAux])
  | succ f ih =>
      intro u acc log out err h herr
      rw [basecampFetchAllPagesAux] at h
      cases hw : world u with
      | error e =>
          rw [hw] at h
          simp only [Option.some.injEq] at h
          rw [← h] at herr
          simp only at herr
          refine ⟨e, u, ?_, ?_, hw⟩
          · cases herr; rfl
          · rw [← h]; simp [List.getLast?_concat]
      | ok res =>
          rw [hw] at h
          dsimp only at h
          cases hn : getNextUrl res.headers with
          | none =>
              rw [hn] at h
              simp only [Option.some.injEq] at h
              rw [← h] at herr
              simp at herr
          | some mnext =>
              rw [hn] at h
              exact ih mnext _ _ out err h herr

/-- C8: the account id used by a call is the caller's argument whenever one
is supplied (non-empty); it reaches every URL the request client or either
walk constructs by plain string concatenation, verbatim between the fixed
origin and the endpoint. -/
theorem C8_account_id_verbatim_in_urls :
    (∀ (ctx : HostCtx) (a : String), a ≠ "" → resolveAccount (some a) ctx = a)
    ∧ (∀ (ctx : HostCtx) (tp : Transport) (m ep : String)
         (b q : List (String × Json)) (a : String), a ≠ "" →
        ((basecampApiRequest ctx tp m ep b q (some a)).2).url
          = "https://3.basecampapi.com/" ++ a ++ ep)
    ∧ (∀ (ctx : HostCtx) (tp : Transport) (m ep : String)
         (b q : List (String × Json)) (a : String) (fuel : Nat) out, a ≠ "" →
        basecampApiRequestAllItems ctx tp m ep b q (some a) fuel = some out →
        ∀ o ∈ out.2.2, o.url = "https://3.basecampapi.com/" ++ a ++ ep)
    ∧ (∀ (ctx : HostCtx) (world : LinkTransport) (ep a : String) (fuel : Nat) out,
        a ≠ "" →
        basecampFetchAllPages ctx world ep (some a) fuel = some out →
        out.2.head? = some ("https://3.basecampapi.com/" ++ a ++ ep)) := by
  refine ⟨?_, ?_, ?_, ?_⟩
  · intro ctx a ha
    exact resolveAccount_some ctx a ha
  · intro ctx tp m ep b q a ha
    rw [basecampApiRequest_snd, buildOptions_url, resolveAccount_some ctx a ha]
  · intro ctx tp m ep b q a fuel out ha h o ho
    obtain ⟨k, _, hlog⟩ := allItemsAux_shape ctx tp m ep b q (some a) fuel 1 [] [] out h
    rw [hlog] at ho
    simp only [List.nil_append, List.mem_map, List.mem_range] at ho
    obtain ⟨i, _, rfl⟩ := ho
    show (pageOpts m ep b q (resolveAccount (some a) ctx) (1 + i)).url = _
    unfold pageOpts
    rw [buildOptions_url, resolveAccount_some ctx a ha]
  · intro ctx world ep a fuel out ha h
    rw [basecampFetchAllPages] at h
    obtain ⟨tail, htail⟩ := fetchAux_log world fuel _ [] [] out h
    rw [htail]
    simp only [List.nil_append, List.head?_cons]
    rw [resolveAccount_some ctx a ha]

/-- C8 witness: the verbatim-URL properties instantiated on concrete calls
with account id `9999`. -/
theorem C8_account_id_verbatim_in_urls_witness :
    resolveAccount (some "9999") ctxW = "9999"
    ∧ ((basecampApiRequest ctxW tpEmpty "GET" "/things.json" [] [] (some "9999")).2).url
        = "https://3.basecampapi.com/" ++ "9999" ++ "/things.json"
    ∧ (∀ o ∈ C10out.2.2, o.url = "https://3.basecampapi.com/" ++ "9999" ++ "/things.json")
    ∧ ([urlA] : List String).head?
        = some ("https://3.basecampapi.com/" ++ "9999" ++ "/things.json") :=
  ⟨C8_account_id_verbatim_in_urls.1 ctxW "9999" (by simp),
   C8_account_id_verbatim_in_urls.2.1 ctxW tpEmpty "GET" "/things.json" [] [] "9999" (by simp),
   C8_account_id_verbatim_in_urls.2.2.1 ctxW tpEmpty "GET" "/things.json" [] [] "9999" 3
     C10out (by simp) rfl,
   C8_account_id_verbatim_in_urls.2.2.2 ctxW emptyPageWorld "/things.json" "9999" 2
     (.ok [], [urlA]) (by simp) rfl⟩

/-- C4: the request client wraps every transport failure as the domain error
carrying the node identity and the cause, and the count-heuristic walk
surfaces exactly that wrapped error from its final request; the Link-header
walk, by contrast, propagates the unwrapped transport cause (not the domain
error) from its final request.  In all three shapes a failure ends the call
with an error — no partial success value and no internal retry. -/
theorem C4_failure_translation :
    (∀ (ctx : HostCtx) (tp : Transport) (m ep : String)
       (b q : List (String × Json)) (aid : Option String) (e : String),
      tp (buildOptions m ep b q (resolveAccount aid ctx)) = .error e →
      (basecampApiRequest ctx tp m ep b q aid).1 = .error (.apiError ctx.nodeName e))
    ∧ (∀ (ctx : HostCtx) (tp : Transport) (m ep : String)
         (b q : List (String × Json)) (aid : Option String) (fuel : Nat) out err,
        basecampApiRequestAllItems ctx tp m ep b q aid fuel = some out →
        out.1 = .error err →
        ∃ e opts, err = .apiError ctx.nodeName e
          ∧ out.2.2.getLast? = some opts ∧ tp opts = .error e)
    ∧ (∀ (ctx : HostCtx) (world : LinkTransport) (ep : String)
         (aid : Option String) (fuel : Nat) out err,
        basecampFetchAllPages ctx world ep aid fuel = some out →
        out.1 = .error err →
        ∃ e ulast, err = .rawError e
          ∧ out.2.getLast? = some ulast ∧ world ulast = .error e) := by
  refine ⟨?_, ?_, ?_⟩
  · intro ctx tp m ep b q aid e htp
    show (match tp (buildOptions m ep b q (resolveAccount aid ctx)) with
      | .ok response => (.ok response : Except EngineError Json)
      | .error e => .error (.apiError ctx.nodeName e)) = _
    rw [htp]
  · intro ctx tp m ep b q aid fuel out err h herr
    rw [basecampApiRequestAllItems] at h
    exact allItemsAux_error ctx tp m ep b aid fuel _ [] [] out err h herr
  · intro ctx world ep aid fuel out err h herr
    rw [basecampFetchAllPages] at h
    exact fetchAux_error world fuel _ [] [] out err h herr

/-- C4 witness: a failing transport produces the wrapped error from the
request client and the count-heuristic walk, and the unwrapped error from
the Link-header walk, on concrete calls. -/
theorem C4_failure_translation_witness :
    (basecampApiRequest ctxW tpFail "GET" "/things.json" [] [] (some "9999")).1
        = .error (.apiError ctxW.nodeName "boom")
    ∧ (∃ e opts, EngineError.apiError "Basecamp" "boom" = .apiError ctxW.nodeName e
        ∧ ([pageOpts "GET" "/things.json" [] [] "9999" 1].getLast? = some opts)
        ∧ tpFail opts = .error e)
    ∧ (∃ e ulast, EngineError.rawError "boom" = .rawError e
        ∧ ([urlA] : List String).getLast? = some ulast
        ∧ worldFail ulast = .error e) :=
  ⟨C4_failure_translation.1 ctxW tpFail "GET" "/things.json" [] [] (some "9999") "boom" rfl,
   C4_failure_translation.2.1 ctxW tpFail "GET" "/things.json" [] [] (some "9999") 3
     (.error (.apiError "Basecamp" "boom"), setKey [] "page" (.num 1),
       [pageOpts "GET" "/things.json" [] [] "9999" 1]) (.apiError "Basecamp" "boom") rfl rfl,
   C4_failure_translation.2.2 ctxW worldFail "/things.json" (some "9999") 3
     (.error (.rawError "boom"), [urlA]) (.rawError "boom") rfl rfl⟩

/-- C4 counterexample: the Link-header walk surfaces a transport failure as
the unwrapped cause, not as the wrapped domain error the claim requires
uniformly of both walks. -/
theorem C4_link_walk_unwrapped_counterexample :
    basecampFetchAllPages ctxW worldFail "/things.json" (some "9999") 3
      = some (.error (.rawError "boom"), [urlA])
    ∧ isApiError (.rawError "boom") = false := ⟨rfl, rfl⟩

/-- C6: the request client attaches the body if and only if the body map has
at least one key, and the query if and only if the query map has at least one
key; an empty map is omitted entirely (never serialized as an empty object
or query string), and a non-empty map is attached verbatim. -/
theorem C6_empty_body_query_omitted (method endpoint : String)
    (bodyMap queryMap : List (String × Json)) (account : String) :
    ((buildOptions method endpoint bodyMap queryMap account).bodyFields
        = if bodyMap.length = 0 then none else some bodyMap)
    ∧ ((buildOptions method endpoint bodyMap queryMap account).qs
        = if queryMap.length = 0 then none else some queryMap) := by
  constructor <;>
    · unfold buildOptions
      rcases bodyMap with _ | ⟨b0, bs⟩ <;> rcases queryMap with _ | ⟨q0, qs0⟩ <;> simp

/-- Completed successful Link-header walks visit exactly the chain of
`rel="next"` targets: the first URL is the starting one, each next URL is
taken from the previous response's Link header (spellings `link`/`Link`),
every visited URL was fetched successfully, the walk stops at the first
response with no `rel="next"` entry, and the items are the concatenation of
the array bodies along the chain (non-array bodies contribute nothing). -/
theorem fetchAux_ok_chain (world : LinkTransport) :
    ∀ (fuel : Nat) (u : String) (acc : List Json) (log : List String)
      (items : List Json) (log' : List String),
    basecampFetchAllPagesAux world fuel u acc log = some (.ok items, log') →
    ∃ visited : List String,
      log' = log ++ visited
      ∧ visited.head? = some u
      ∧ List.Chain' (fun x y => ∃ r, world x = .ok r ∧ getNextUrl r.headers = some y) visited
      ∧ (∀ x ∈ visited, ∃ r, world x = .ok r)
      ∧ (∃ ulast r, visited.getLast? = some ulast ∧ world ulast = .ok r
          ∧ getNextUrl r.headers = none)
      ∧ items = acc ++ (visited.map (pageItems world)).flatten := by
  intro fuel
  induction fuel with
  | zero =>
      intro u acc log items log' h
      exact absurd h (by simp [basecampFetchAllPagesAux])
  | succ f ih =>
      intro u acc log items log' h
      rw [basecampFetchAllPagesAux] at h
      cases hw : world u with
      | error e =>
          rw [hw] at h
          simp at h
      | ok res =>
          rw [hw] at h
          dsimp only at h
          have hacc : (match res.body with
              | Json.arr its => acc ++ its
              | _ => acc) = acc ++ pageItems world u := by
            unfold pageItems
            rw [hw]
            cases hb : res.body <;> simp [hb]
          cases hn : getNextUrl res.headers with
          | none =>
              rw [hn] at h
              simp only [Option.some.injEq, Prod.mk.injEq] at h
              obtain ⟨hitems, hlog⟩ := h
              refine ⟨[u], by rw [← hlog], rfl, by simp, ?_, ?_, ?_⟩
              · intro x hx
                simp only [List.mem_singleton] at hx
                subst hx
                exact ⟨res, hw⟩
              · exact ⟨u, res, by simp, hw, hn⟩
              · cases hitems
                rw [hacc]
                simp
          | some mnext =>
              rw [hn] at h
              obtain ⟨visited', hlog, hhead, hchain, hmem, hlast, hitems⟩ :=
                ih mnext _ _ items log' h
              obtain ⟨v0, vs, rfl⟩ : ∃ v0 vs, visited' = v0 :: vs := by
                cases visited' with
                | nil => simp at hhead
                | cons v0 vs => exact ⟨v0, vs, rfl⟩
              have hv0 : v0 = mnext := by simpa using hhead
              subst hv0
              refine ⟨u :: v0 :: vs, ?_, rfl, ?_, ?_, ?_, ?_⟩
              · rw [hlog]; simp
              · exact List.Chain'.cons ⟨res, hw, hn⟩ hchain
              · intro x hx
                rcases List.mem_cons.mp hx with rfl | hx'
                · exact ⟨res, hw⟩
                · exact hmem x hx'
              · obtain ⟨ulast, r, hul, hwr, hnr⟩ := hlast
                exact ⟨ulast, r, by rw [List.getLast?_cons_cons]; exact hul, hwr, hnr⟩
              · rw [hitems, hacc]
                simp

/-- C2: every completed successful Link-header walk issues exactly one
further request per response whose Link header (under the source's
`link`/`Link` spellings) contains a `rel="next"` target, following those
targets in order from the constructed starting URL, and terminates at the
first response without such an entry; a non-array body contributes zero
items but does not stop the walk. -/
theorem C2_link_walk_follows_next_chain (ctx : HostCtx) (world : LinkTransport)
    (ep : String) (aid : Option String) (fuel : Nat)
    (items : List Json) (log : List String)
    (h : basecampFetchAllPages ctx world ep aid fuel = some (.ok items, log)) :
    ∃ visited : List String,
      log = visited
      ∧ visited.head? = some ("https://3.basecampapi.com/" ++ resolveAccount aid ctx ++ ep)
      ∧ List.Chain' (fun x y => ∃ r, world x = .ok r ∧ getNextUrl r.headers = some y) visited
      ∧ (∀ x ∈ visited, ∃ r, world x = .ok r)
      ∧ (∃ ulast r, visited.getLast? = some ulast ∧ world ulast = .ok r
          ∧ getNextUrl r.headers = none)
      ∧ items = (visited.map (pageItems world)).flatten := by
  rw [basecampFetchAllPages] at h
  obtain ⟨visited, hlog, hhead, hchain, hmem, hlast, hitems⟩ :=
    fetchAux_ok_chain world fuel _ [] [] items log h
  exact ⟨visited, by simpa using hlog, hhead, hchain, hmem, hlast, by simpa using hitems⟩

/-- C2 witness: the chain property instantiated on a concrete two-page walk
linked via a lowercase `link` header. -/
theorem C2_link_walk_follows_next_chain_witness :
    ∃ visited : List String,
      ([urlA, urlB] : List String) = visited
      ∧ visited.head? = some ("https://3.basecampapi.com/"
          ++ resolveAccount (some "9999") ctxW ++ "/things.json")
      ∧ List.Chain' (fun x y => ∃ r, C2chainWorld x = .ok r
          ∧ getNextUrl r.headers = some y) visited
      ∧ (∀ x ∈ visited, ∃ r, C2chainWorld x = .ok r)
      ∧ (∃ ulast r, visited.getLast? = some ulast ∧ C2chainWorld ulast = .ok r
          ∧ getNextUrl r.headers = none)
      ∧ [Json.num 1, Json.num 2] = (visited.map (pageItems C2chainWorld)).flatten :=
  C2_link_walk_follows_next_chain ctxW C2chainWorld "/things.json" (some "9999") 5
    [Json.num 1, Json.num 2] [urlA, urlB] rfl

/-- C2 counterexample: a response whose only Link header uses the spelling
`LINK` carries a `rel="next"` target under case-insensitive lookup, yet the
walk stops after one request — the source tries exactly the spellings `link`
and `Link`, so the claim's case-insensitive lookup fails. -/
theorem C2_case_insensitive_lookup_counterexample :
    basecampFetchAllPages ctxW C2world "/things.json" (some "9999") 5
      = some (.ok [Json.num 1], [urlA])
    ∧ hasNextCaseInsensitive [("LINK", "<" ++ urlB ++ ">; rel=\"next\"")] = true
    ∧ getNextUrl [("LINK", "<" ++ urlB ++ ">; rel=\"next\"")] = none := by
  refine ⟨rfl, ?_, ?_⟩ <;> decide

/-- A dock without a matching entry resolves to `undefined`. -/
theorem dockFind_of_find_none (project : Json) (entries : List Json) (name : String)
    (hdock : jGet project "dock" = .arr entries)
    (hfind : entries.find? (fun d => jGet d "name" == Json.str name) = none) :
    dockFind project name = .undefined := by
  unfold dockFind
  rw [hdock]
  dsimp only
  rw [hfind]
  rfl

/-- Any single-entry builder whose dock entry is absent returns the empty
list after its one project request, with no error. -/
theorem dockSingleBuilder_absent (ctx : HostCtx) (tp : Transport)
    (pid name fb : String) (project : Json)
    (hproj : tp (projectRequestOptions ctx pid) = .ok project)
    (hfind : dockFind project name = .undefined) :
    dockSingleBuilder ctx tp pid name fb
      = (.ok [], [projectRequestOptions ctx pid]) := by
  unfold dockSingleBuilder
  simp only [basecampApiRequest, resolveAccount_param]
  rw [show buildOptions "GET" ("/projects/" ++ pid ++ ".json") [] [] ctx.accountParam
        = projectRequestOptions ctx pid from rfl]
  rw [hproj]
  dsimp only
  rw [hfind]
  simp [truthy]

/-- C7: for a project whose dock array contains no entry with the requested
name, every option builder that requires that dock entry — the six
single-entry builders and the two walking builders (`getTodolists`,
`getVaults`) — returns an empty option list and no error. -/
theorem C7_dock_absence_returns_empty (ctx : HostCtx) (tp : Transport)
    (projectId : String) (fuel : Nat) (project : Json) (entries : List Json)
    (hproj : tp (projectRequestOptions ctx projectId) = .ok project)
    (hdock : jGet project "dock" = .arr entries) :
    (entries.find? (fun d => jGet d "name" == Json.str "chat") = none →
      getCampfires ctx tp projectId = (.ok [], [projectRequestOptions ctx projectId]))
    ∧ (entries.find? (fun d => jGet d "name" == Json.str "message_board") = none →
      getMessageBoards ctx tp projectId = (.ok [], [projectRequestOptions ctx projectId]))
    ∧ (entries.find? (fun d => jGet d "name" == Json.str "schedule") = none →
      getSchedules ctx tp projectId = (.ok [], [projectRequestOptions ctx projectId]))
    ∧ (entries.find? (fun d => jGet d "name" == Json.str "questionnaire") = none →
      getQuestionnaires ctx tp projectId = (.ok [], [projectRequestOptions ctx projectId]))
    ∧ (entries.find? (fun d => jGet d "name" == Json.str "kanban_board") = none →
      getCardTables ctx tp projectId = (.ok [], [projectRequestOptions ctx projectId]))
    ∧ (entries.find? (fun d => jGet d "name" == Json.str "todoset") = none →
      getTodosets ctx tp projectId = (.ok [], [projectRequestOptions ctx projectId]))
    ∧ (entries.find? (fun d => jGet d "name" == Json.str "todoset") = none →
      getTodolists ctx tp projectId fuel
        = some (.ok [], [projectRequestOptions ctx projectId]))
    ∧ (entries.find? (fun d => jGet d "name" == Json.str "vault") = none →
      getVaults ctx tp projectId fuel
        = some (.ok [], [projectRequestOptions ctx projectId])) := by
  refine ⟨?_, ?_, ?_, ?_, ?_, ?_, ?_, ?_⟩
  · intro hfind
    exact dockSingleBuilder_absent ctx tp projectId "chat" "Campfire" project hproj
      (dockFind_of_find_none project entries "chat" hdock hfind)
  · intro hfind
    exact dockSingleBuilder_absent ctx tp projectId "message_board" "Message Board"
      project hproj (dockFind_of_find_none project entries "message_board" hdock hfind)
  · intro hfind
    exact dockSingleBuilder_absent ctx tp projectId "schedule" "Schedule" project hproj
      (dockFind_of_find_none project entries "schedule" hdock hfind)
  · intro hfind
    exact dockSingleBuilder_absent ctx tp projectId "questionnaire" "Automatic Check-ins"
      project hproj (dockFind_of_find_none project entries "questionnaire" hdock hfind)
  · intro hfind
    exact dockSingleBuilder_absent ctx tp projectId "kanban_board" "Card Table"
      project hproj (dockFind_of_find_none project entries "kanban_board" hdock hfind)
  · intro hfind
    exact dockSingleBuilder_absent ctx tp projectId "todoset" "To-dos" project hproj
      (dockFind_of_find_none project entries "todoset" hdock hfind)
  · intro hfind
    have hent := dockFind_of_find_none project entries "todoset" hdock hfind
    unfold getTodolists
    simp only [basecampApiRequest, resolveAccount_param]
    rw [show buildOptions "GET" ("/projects/" ++ projectId ++ ".json") [] [] ctx.accountParam
          = projectRequestOptions ctx projectId from rfl]
    rw [hproj]
    dsimp only
    rw [hent]
    simp [jGet, truthy]
  · intro hfind
    have hent := dockFind_of_find_none project entries "vault" hdock hfind
    unfold getVaults
    simp only [basecampApiRequest, resolveAccount_param]
    rw [show buildOptions "GET" ("/projects/" ++ projectId ++ ".json") [] [] ctx.accountParam
          = projectRequestOptions ctx projectId from rfl]
    rw [hproj]
    dsimp only
    rw [hent]
    simp [truthy]

/-- C7 witness: every builder instantiated on a project with an empty dock. -/
theorem C7_dock_absence_returns_empty_witness :
    getCampfires ctxW C7tp "123" = (.ok [], [projectRequestOptions ctxW "123"])
    ∧ getMessageBoards ctxW C7tp "123" = (.ok [], [projectRequestOptions ctxW "123"])
    ∧ getSchedules ctxW C7tp "123" = (.ok [], [projectRequestOptions ctxW "123"])
    ∧ getQuestionnaires ctxW C7tp "123" = (.ok [], [projectRequestOptions ctxW "123"])
    ∧ getCardTables ctxW C7tp "123" = (.ok [], [projectRequestOptions ctxW "123"])
    ∧ getTodosets ctxW C7tp "123" = (.ok [], [projectRequestOptions ctxW "123"])
    ∧ getTodolists ctxW C7tp "123" 2 = some (.ok [], [projectRequestOptions ctxW "123"])
    ∧ getVaults ctxW C7tp "123" 2 = some (.ok [], [projectRequestOptions ctxW "123"]) := by
  have h := C7_dock_absence_returns_empty ctxW C7tp "123" 2 emptyDockProject [] rfl rfl
  exact ⟨h.1 rfl, h.2.1 rfl, h.2.2.1 rfl, h.2.2.2.1 rfl, h.2.2.2.2.1 rfl,
    h.2.2.2.2.2.1 rfl, h.2.2.2.2.2.2.1 rfl, h.2.2.2.2.2.2.2 rfl⟩

/-- Every request the builders' page loop adds to its log targets the loop's
fixed endpoint under the host-context account. -/
theorem bucketPagedLoop_log (ctx : HostCtx) (tp : Transport) (ep : String)
    (mk : Json → OptionEntry) :
    ∀ (fuel page : Nat) (acc : List OptionEntry) (log : List RequestOptions) out,
    bucketPagedLoop ctx tp ep mk fuel page acc log = some out →
    ∀ o ∈ out.2, o ∈ log
      ∨ o.url = "https://3.basecampapi.com/" ++ ctx.accountParam ++ ep := by
  intro fuel
  induction fuel with
  | zero =>
      intro page acc log out h
      exact absurd h (by simp [bucketPagedLoop])
  | succ f ih =>
      intro page acc log out h o ho
      rw [bucketPagedLoop] at h
      simp only [basecampApiRequest, resolveAccount_param] at h
      have hurl : (buildOptions "GET" ep [] [("page", Json.num page)] ctx.accountParam).url
          = "https://3.basecampapi.com/" ++ ctx.accountParam ++ ep := buildOptions_url _ _ _ _ _
      have hstep : ∀ (o' : RequestOptions),
          o' ∈ log ++ [buildOptions "GET" ep [] [("page", Json.num page)] ctx.accountParam] →
          o' ∈ log ∨ o'.url = "https://3.basecampapi.com/" ++ ctx.accountParam ++ ep := by
        intro o' ho'
        rcases List.mem_append.mp ho' with hl | hr
        · exact Or.inl hl
        · simp only [List.mem_singleton] at hr
          subst hr
          exact Or.inr hurl
      cases htp : tp (buildOptions "GET" ep [] [("page", Json.num page)] ctx.accountParam) with
      | error e =>
          rw [htp] at h
          simp only [Option.some.injEq] at h
          rw [← h] at ho
          exact hstep o ho
      | ok resp =>
          rw [htp] at h
          cases resp with
          | arr items =>
              by_cases h0 : items.length = 0
              · simp only [h0, if_true, ite_true, Option.some.injEq] at h
                rw [← h] at ho
                exact hstep o ho
              · simp only [h0, if_false, ite_false] at h
                by_cases h50 : items.length ≥ 50
                · simp only [h50, if_true, ite_true] at h
                  have := ih (page + 1) (acc ++ items.map mk)
                    (log ++ [buildOptions "GET" ep [] [("page", Json.num page)] ctx.accountParam])
                    out h o ho
                  rcases this with hl | hr
                  · exact hstep o hl
                  · exact Or.inr hr
                · simp only [h50, if_false, ite_false, Option.some.injEq] at h
                  rw [← h] at ho
                  exact hstep o ho
          | null =>
              simp only [Option.some.injEq] at h
              rw [← h] at ho; exact hstep o ho
          | undefined =>
              simp only [Option.some.injEq] at h
              rw [← h] at ho; exact hstep o ho
          | bool x =>
              simp only [Option.some.injEq] at h
              rw [← h] at ho; exact hstep o ho
          | num x =>
              simp only [Option.some.injEq] at h
              rw [← h] at ho; exact hstep o ho
          | str x =>
              simp only [Option.some.injEq] at h
              rw [← h] at ho; exact hstep o ho
          | obj x =>
              simp only [Option.some.injEq] at h
              rw [← h] at ho; exact hstep o ho

/-- The builders' page loop only ever appends to its accumulator. -/
theorem bucketPagedLoop_acc (ctx : HostCtx) (tp : Transport) (ep : String)
    (mk : Json → OptionEntry) :
    ∀ (fuel page : Nat) (acc : List OptionEntry) (log : List RequestOptions)
      out (entries : List OptionEntry),
    bucketPagedLoop ctx tp ep mk fuel page acc log = some out →
    out.1 = .ok entries → ∃ tail, entries = acc ++ tail := by
  intro fuel
  induction fuel with
  | zero =>
      intro page acc log out entries h
      exact absurd h (by simp [bucketPagedLoop])
  | succ f ih =>
      intro page acc log out entries h hok
      rw [bucketPagedLoop] at h
      simp only [basecampApiRequest, resolveAccount_param] at h
      cases htp : tp (buildOptions "GET" ep [] [("page", Json.num page)] ctx.accountParam) with
      | error e =>
          rw [htp] at h
          simp only [Option.some.injEq] at h
          rw [← h] at hok
          simp at hok
      | ok resp =>
          rw [htp] at h
          cases resp with
          | arr items =>
              by_cases h0 : items.length = 0
              · simp only [h0, if_true, ite_true, Option.some.injEq] at h
                rw [← h] at hok
                simp only [Except.ok.injEq] at hok
                exact ⟨[], by rw [← hok]; simp⟩
              · simp only [h0, if_false, ite_false] at h
                by_cases h50 : items.length ≥ 50
                · simp only [h50, if_true, ite_true] at h
                  obtain ⟨tail, htail⟩ := ih (page + 1) (acc ++ items.map mk) _ out entries h hok
                  exact ⟨items.map mk ++ tail, by rw [htail]; simp⟩
                · simp only [h50, if_false, ite_false, Option.some.injEq] at h
                  rw [← h] at hok
                  simp only [Except.ok.injEq] at hok
                  exact ⟨items.map mk, by rw [← hok]⟩
          | null =>
              simp only [Option.some.injEq] at h
              rw [← h] at hok
              simp only [Except.ok.injEq] at hok
              exact ⟨[], by rw [← hok]; simp⟩
          | undefined =>
              simp only [Option.some.injEq] at h
              rw [← h] at hok
              simp only [Except.ok.injEq] at hok
              exact ⟨[], by rw [← hok]; simp⟩
          | bool x =>
              simp only [Option.some.injEq] at h
              rw [← h] at hok
              simp only [Except.ok.injEq] at hok
              exact ⟨[], by rw [← hok]; simp⟩
          | num x =>
              simp only [Option.some.injEq] at h
              rw [← h] at hok
              simp only [Except.ok.injEq] at hok
              exact ⟨[], by rw [← hok]; simp⟩
          | str x =>
              simp only [Option.some.injEq] at h
              rw [← h] at hok
              simp only [Except.ok.injEq] at hok
              exact ⟨[], by rw [← hok]; simp⟩
          | obj x =>
              simp only [Option.some.injEq] at h
              rw [← h] at hok
              simp only [Except.ok.injEq] at hok
              exact ⟨[], by rw [← hok]; simp⟩

/-- C3: when the todoset dock entry's URL matches
`buckets/(\d+)/todosets/(\d+)`, the todolist builder runs its page loop
against `/buckets/${projectId}/todosets/${todosetId}/todolists.json` — the
todoset id being the second capture group but the bucket segment being the
caller-supplied project id (the first capture group is ignored) — and every
listing request it issues targets exactly that URL; when the URL is falsy or
does not match, and when the entry is absent, it returns the empty list. -/
theorem C3_todolists_target (ctx : HostCtx) (tp : Transport)
    (pid : String) (fuel : Nat) (project : Json)
    (hproj : tp (projectRequestOptions ctx pid) = .ok project) :
    (truthy (jGet (dockFind project "todoset") "url") = false →
      getTodolists ctx tp pid fuel = some (.ok [], [projectRequestOptions ctx pid]))
    ∧ (∀ url, jGet (dockFind project "todoset") "url" = .str url → url ≠ "" →
        matchBucketsTodosets url = none →
        getTodolists ctx tp pid fuel = some (.ok [], [projectRequestOptions ctx pid]))
    ∧ (∀ url bkt tsid, jGet (dockFind project "todoset") "url" = .str url → url ≠ "" →
        matchBucketsTodosets url = some (bkt, tsid) →
        getTodolists ctx tp pid fuel
          = bucketPagedLoop ctx tp
              ("/buckets/" ++ pid ++ "/todosets/" ++ tsid ++ "/todolists.json")
              titleIdEntry fuel 1 [] [projectRequestOptions ctx pid]
        ∧ (∀ out, bucketPagedLoop ctx tp
              ("/buckets/" ++ pid ++ "/todosets/" ++ tsid ++ "/todolists.json")
              titleIdEntry fuel 1 [] [projectRequestOptions ctx pid] = some out →
            ∀ o ∈ out.2, o = projectRequestOptions ctx pid
              ∨ o.url = "https://3.basecampapi.com/" ++ ctx.accountParam
                  ++ "/buckets/" ++ pid ++ "/todosets/" ++ tsid ++ "/todolists.json")) := by
  have hreq : (basecampApiRequest ctx tp "GET" ("/projects/" ++ pid ++ ".json")
      [] [] (some ctx.accountParam))
      = (match tp (projectRequestOptions ctx pid) with
         | .ok r => (.ok r : Except EngineError Json)
         | .error e => .error (.apiError ctx.nodeName e),
         projectRequestOptions ctx pid) := by
    simp only [basecampApiRequest, resolveAccount_param]
    rfl
  refine ⟨?_, ?_, ?_⟩
  · intro hfalsy
    unfold getTodolists
    rw [hreq, hproj]
    dsimp only
    rw [hfalsy]
    simp
  · intro url hurl hne hmatch
    unfold getTodolists
    rw [hreq, hproj]
    dsimp only
    rw [hurl]
    have ht : truthy (Json.str url) = true := by simp [truthy, hne]
    rw [ht]
    simp only [if_true, ite_true]
    rw [show asString (Json.str url) = url from rfl, hmatch]
  · intro url bkt tsid hurl hne hmatch
    constructor
    · unfold getTodolists
      rw [hreq, hproj]
      dsimp only
      rw [hurl]
      have ht : truthy (Json.str url) = true := by simp [truthy, hne]
      rw [ht]
      simp only [if_true, ite_true]
      rw [show asString (Json.str url) = url from rfl, hmatch]
    · intro out hloop o ho
      have := bucketPagedLoop_log ctx tp
        ("/buckets/" ++ pid ++ "/todosets/" ++ tsid ++ "/todolists.json")
        titleIdEntry fuel 1 [] [projectRequestOptions ctx pid] out hloop o ho
      rcases this with hl | hr
      · exact Or.inl (by simpa using hl)
      · right
        rw [hr]
        simp [String.append_assoc]

/-- C3 witness: the matched case instantiated on the concrete project whose
todoset URL names bucket 55 and todoset 77, with caller project id 123. -/
theorem C3_todolists_target_witness :
    getTodolists ctxW C3tp "123" 2
      = bucketPagedLoop ctxW C3tp "/buckets/123/todosets/77/todolists.json"
          titleIdEntry 2 1 [] [projectRequestOptions ctxW "123"]
    ∧ (∀ out, bucketPagedLoop ctxW C3tp "/buckets/123/todosets/77/todolists.json"
          titleIdEntry 2 1 [] [projectRequestOptions ctxW "123"] = some out →
        ∀ o ∈ out.2, o = projectRequestOptions ctxW "123"
          ∨ o.url = "https://3.basecampapi.com/" ++ ctxW.accountParam
              ++ "/buckets/" ++ "123" ++ "/todosets/" ++ "77" ++ "/todolists.json") :=
  (C3_todolists_target ctxW C3tp "123" 2 project3 rfl).2.2
    "https://3.basecampapi.com/9999/buckets/55/todosets/77" "55" "77"
    rfl (by simp) rfl

/-- C3 counterexample: for caller project id 123 and a todoset dock URL
naming bucket 55 / todoset 77, the one listing request issued targets
`/buckets/123/...` — the extracted bucket id 55 is not used, refuting
"bucket 55 and todoset 77 exactly (the two ids extracted from the URL)". -/
theorem C3_bucket_id_ignored_counterexample :
    getTodolists ctxW C3tp "123" 2
      = some (.ok [], [projectRequestOptions ctxW "123",
          buildOptions "GET" "/buckets/123/todosets/77/todolists.json"
            [] [("page", Json.num 1)] "9999"])
    ∧ (buildOptions "GET" "/buckets/123/todosets/77/todolists.json"
          [] [("page", Json.num 1)] "9999").url
        = "https://3.basecampapi.com/9999/buckets/123/todosets/77/todolists.json"
    ∧ jGet (dockFind project3 "todoset") "url"
        = .str "https://3.basecampapi.com/9999/buckets/55/todosets/77"
    ∧ matchBucketsTodosets "https://3.basecampapi.com/9999/buckets/55/todosets/77"
        = some ("55", "77")
    ∧ ("123" : String) ≠ "55" := by
  refine ⟨rfl, rfl, rfl, by decide, by decide⟩

/-- C5: for every project whose dock carries a (truthy) vault entry, the
nested-vault builder seeds its accumulator with the root-vault entry
(`title || 'Root Vault'`, stringified id) and hands it to the
count-heuristic page loop, so every successful result starts with the root
entry followed by the collected children; in the concrete scenario (account
9999, project 123, vault `{name: "vault", id: 55, title: "Docs"}`, child
pages of 50 then 3 items) it returns exactly 54 entries, the first being
`{name: "Docs", value: "55"}`. -/
theorem C5_vaults_root_prepended :
    (∀ (ctx : HostCtx) (tp : Transport) (pid : String) (fuel : Nat)
       (project vault : Json),
      tp (projectRequestOptions ctx pid) = .ok project →
      dockFind project "vault" = vault →
      truthy vault = true →
      getVaults ctx tp pid fuel
        = bucketPagedLoop ctx tp
            ("/buckets/" ++ pid ++ "/vaults/" ++ jsToString (jGet vault "id") ++ "/vaults.json")
            titleIdEntry fuel 1 [rootVaultEntry vault] [projectRequestOptions ctx pid]
      ∧ (∀ out (entries : List OptionEntry), bucketPagedLoop ctx tp
            ("/buckets/" ++ pid ++ "/vaults/" ++ jsToString (jGet vault "id") ++ "/vaults.json")
            titleIdEntry fuel 1 [rootVaultEntry vault] [projectRequestOptions ctx pid]
            = some out →
          out.1 = .ok entries → ∃ tail, entries = rootVaultEntry vault :: tail))
    ∧ (getVaults ctxW C5tp "123" 3
        = some (.ok C5expected,
            [projectRequestOptions ctxW "123",
             buildOptions "GET" "/buckets/123/vaults/55/vaults.json"
               [] [("page", Json.num 1)] "9999",
             buildOptions "GET" "/buckets/123/vaults/55/vaults.json"
               [] [("page", Json.num 2)] "9999"])
      ∧ C5expected.length = 54
      ∧ C5expected.head? = some ⟨.str "Docs", "55"⟩) := by
  constructor
  · intro ctx tp pid fuel project vault hproj hvault ht
    have hreq : (basecampApiRequest ctx tp "GET" ("/projects/" ++ pid ++ ".json")
        [] [] (some ctx.accountParam))
        = (match tp (projectRequestOptions ctx pid) with
           | .ok r => (.ok r : Except EngineError Json)
           | .error e => .error (.apiError ctx.nodeName e),
           projectRequestOptions ctx pid) := by
      simp only [basecampApiRequest, resolveAccount_param]
      rfl
    constructor
    · unfold getVaults
      rw [hreq, hproj]
      dsimp only
      rw [hvault, ht]
      simp only [if_true, ite_true]
    · intro out entries hloop hok
      obtain ⟨tail, htail⟩ := bucketPagedLoop_acc ctx tp _ titleIdEntry fuel 1
        [rootVaultEntry vault] [projectRequestOptions ctx pid] out entries hloop hok
      exact ⟨tail, by simpa using htail⟩
  · refine ⟨rfl, ?_, rfl⟩
    simp [C5expected, vaultPage1, vaultPage2]

/-- C5 witness: the general root-prepending property instantiated on the
concrete scenario's project and transport. -/
theorem C5_vaults_root_prepended_witness :
    getVaults ctxW C5tp "123" 3
      = bucketPagedLoop ctxW C5tp "/buckets/123/vaults/55/vaults.json" titleIdEntry 3 1
          [rootVaultEntry (dockFind project5 "vault")] [projectRequestOptions ctxW "123"]
    ∧ (∀ out (entries : List OptionEntry),
        bucketPagedLoop ctxW C5tp "/buckets/123/vaults/55/vaults.json" titleIdEntry 3 1
          [rootVaultEntry (dockFind project5 "vault")] [projectRequestOptions ctxW "123"]
          = some out →
        out.1 = .ok entries →
        ∃ tail, entries = rootVaultEntry (dockFind project5 "vault") :: tail) :=
  C5_vaults_root_prepended.1 ctxW C5tp "123" 3 project5 (dockFind project5 "vault")
    rfl rfl rfl

end Basecamp
